import Mathlib

/-!
Shallow embedding of `mindspore/explainer/_image_classification_runner.py`
(ImageClassificationRunner) and proofs about its behaviour.

Numpy / Python machine floats are modelled as exact rationals (`ℚ`), extended
with an explicit NaN marker where NaN propagation is the point at issue.
Python integers are `ℕ` / `ℤ`.  Fallible code returns `Option`/`Except` or an
error-component pair.
-/

/-! ### NaN handling in `_run_exp_benchmark_step` (lines 416-443)

The benchmark step guards every metric result with
`if np.any(res == np.nan): res = np.zeros_like(res)` before calling
`benchmarker.aggregate`.  We model a numpy float as either NaN or a rational
value, and numpy's elementwise `==` (which is false whenever either side is
NaN, in particular `NaN == NaN` is false). -/

inductive EFloat where
  | nan : EFloat
  | val : ℚ → EFloat
deriving DecidableEq, Repr

/-- Numpy scalar equality test: any comparison with NaN is false. -/
def npEq : EFloat → EFloat → Bool
  | EFloat.val a, EFloat.val b => a == b
  | _, _ => false

/-- `np.any(res == np.nan)` on a result array `res`. -/
def npAnyEqNan (res : List EFloat) : Bool :=
  res.any (fun x => npEq x EFloat.nan)

/-- `np.zeros_like(res)`. -/
def npZerosLike (res : List EFloat) : List EFloat :=
  res.map (fun _ => EFloat.val 0)

/-- The guard of `_run_exp_benchmark_step` (lines 428-429, 433-434, 438-439):
the value that is actually passed on to `benchmarker.aggregate`. -/
def nanGuard (res : List EFloat) : List EFloat :=
  if npAnyEqNan res then npZerosLike res else res

lemma npEq_nan_right (x : EFloat) : npEq x EFloat.nan = false := by
  cases x <;> rfl

/-- The guard condition can never fire: comparing with NaN is always false. -/
lemma npAnyEqNan_eq_false (res : List EFloat) : npAnyEqNan res = false := by
  simp [npAnyEqNan, npEq_nan_right]

lemma nanGuard_id (res : List EFloat) : nanGuard res = res := by
  simp [nanGuard, npAnyEqNan_eq_false]

/-- C1: the claim says a NaN metric result is replaced by a zero array before
aggregation.  The code's guard `np.any(res == np.nan)` is always false (NaN
compares unequal to everything, including NaN), so a NaN result is passed to
`aggregate` unchanged: at the failing input `res = [NaN]` the aggregated value
is `[NaN]`, not the zero array. -/
theorem nanGuard_keeps_nan :
    nanGuard [EFloat.nan] = [EFloat.nan] ∧
    nanGuard [EFloat.nan] ≠ npZerosLike [EFloat.nan] := by
  constructor
  · rfl
  · intro h
    exact absurd h (by decide)

/-! ### `_normalize` (lines 41-46)

`(img_np - min_) / (max_ - min_).clip(min=1e-10)` over an image flattened to a
list of rationals.  `npMax`/`npMin` are numpy's `max()`/`min()` on a nonempty
array. -/

def npMax : List ℚ → ℚ
  | [] => 0
  | x :: xs => xs.foldl max x

def npMin : List ℚ → ℚ
  | [] => 0
  | x :: xs => xs.foldl min x

/-- The clip floor `1e-10` used on the denominator. -/
def epsDen : ℚ := 1 / 10 ^ 10

/-- `q.clip(min=eps)` on a scalar. -/
def clipMin (eps q : ℚ) : ℚ := max q eps

/-- `_normalize` from the source (lines 41-46). -/
def pyNormalize (img : List ℚ) : List ℚ :=
  let max_ := npMax img
  let min_ := npMin img
  img.map (fun x => (x - min_) / clipMin epsDen (max_ - min_))

lemma foldl_max_map (f : ℚ → ℚ) (hf : Monotone f) :
    ∀ (l : List ℚ) (a : ℚ), (l.map f).foldl max (f a) = f (l.foldl max a) := by
  intro l
  induction l with
  | nil => intro a; rfl
  | cons b t ih =>
      intro a
      simp only [List.map_cons, List.foldl_cons]
      rw [← hf.map_max, ih]

lemma foldl_min_map (f : ℚ → ℚ) (hf : Monotone f) :
    ∀ (l : List ℚ) (a : ℚ), (l.map f).foldl min (f a) = f (l.foldl min a) := by
  intro l
  induction l with
  | nil => intro a; rfl
  | cons b t ih =>
      intro a
      simp only [List.map_cons, List.foldl_cons]
      rw [← hf.map_min, ih]

lemma npMax_map (f : ℚ → ℚ) (hf : Monotone f) (l : List ℚ) (hne : l ≠ []) :
    npMax (l.map f) = f (npMax l) := by
  cases l with
  | nil => exact absurd rfl hne
  | cons x xs => simpa [npMax] using foldl_max_map f hf xs x

lemma npMin_map (f : ℚ → ℚ) (hf : Monotone f) (l : List ℚ) (hne : l ≠ []) :
    npMin (l.map f) = f (npMin l) := by
  cases l with
  | nil => exact absurd rfl hne
  | cons x xs => simpa [npMin] using foldl_min_map f hf xs x

lemma epsDen_pos : 0 < epsDen := by norm_num [epsDen]

lemma clipMin_pos (q : ℚ) : 0 < clipMin epsDen q :=
  lt_of_lt_of_le epsDen_pos (le_max_right q epsDen)

lemma normalize_mono (m d : ℚ) (hd : 0 < d) :
    Monotone (fun x : ℚ => (x - m) / d) := by
  intro a b hab
  dsimp only
  gcongr

lemma npMax_pair (a b : ℚ) : npMax [a, b] = max a b := rfl

lemma npMin_pair (a b : ℚ) : npMin [a, b] = min a b := rfl

/-- C4 (amended): for every nonempty input whose max-min range is at least the
clip floor `1e-10`, the normalized output has minimum `0` and maximum `1`; and
for every input (constant arrays included) the clamped denominator is strictly
positive, so the division is well defined. -/
theorem normalize_minmax_amended (l l2 : List ℚ) (hne : l ≠ [])
    (hrange : epsDen ≤ npMax l - npMin l) :
    npMin (pyNormalize l) = 0 ∧ npMax (pyNormalize l) = 1 ∧
    0 < clipMin epsDen (npMax l2 - npMin l2) := by
  have hd : 0 < clipMin epsDen (npMax l - npMin l) := clipMin_pos _
  have hmono := normalize_mono (npMin l) _ hd
  have hclip : clipMin epsDen (npMax l - npMin l) = npMax l - npMin l :=
    max_eq_left hrange
  refine ⟨?_, ?_, clipMin_pos _⟩
  · rw [pyNormalize, npMin_map _ hmono l hne]
    simp
  · rw [pyNormalize, npMax_map _ hmono l hne]
    have hne0 : npMax l - npMin l ≠ 0 :=
      ne_of_gt (lt_of_lt_of_le epsDen_pos hrange)
    simp only [hclip]
    exact div_self hne0

/-- C4 witness: the amended statement instantiated at the non-constant input
`[0, 1]` (range `1 ≥ 1e-10`) and the constant input `[5, 5]`. -/
theorem normalize_minmax_amended_witness :
    npMin (pyNormalize [(0 : ℚ), 1]) = 0 ∧ npMax (pyNormalize [(0 : ℚ), 1]) = 1 ∧
    0 < clipMin epsDen (npMax [(5 : ℚ), 5] - npMin [(5 : ℚ), 5]) :=
  normalize_minmax_amended [(0 : ℚ), 1] [(5 : ℚ), 5] (List.cons_ne_nil _ _)
    (by rw [npMax_pair, npMin_pair, max_eq_right (by norm_num), min_eq_left (by norm_num)]
        norm_num [epsDen])

/-- C4 counterexample: the input `[0, 1e-11]` is not constant, yet the
normalized maximum is `1/10`, not `1`, because the denominator is clipped up to
`1e-10`.  This refutes the claim that every non-constant input normalizes to
maximum `1`. -/
theorem normalize_tiny_range_cex :
    npMin [(0 : ℚ), 1 / 10 ^ 11] ≠ npMax [(0 : ℚ), 1 / 10 ^ 11] ∧
    npMax (pyNormalize [(0 : ℚ), 1 / 10 ^ 11]) ≠ 1 := by
  have hmin : npMin [(0 : ℚ), 1 / 10 ^ 11] = 0 := by
    rw [npMin_pair, min_eq_left (by norm_num)]
  have hmax : npMax [(0 : ℚ), 1 / 10 ^ 11] = 1 / 10 ^ 11 := by
    rw [npMax_pair, max_eq_right (by norm_num)]
  have hclip :
      clipMin epsDen (npMax [(0 : ℚ), 1 / 10 ^ 11] - npMin [(0 : ℚ), 1 / 10 ^ 11]) = epsDen := by
    rw [hmax, hmin, clipMin, max_eq_right (by norm_num [epsDen])]
  constructor
  · rw [hmin, hmax]; norm_num
  · have hval : pyNormalize [(0 : ℚ), 1 / 10 ^ 11] = [0, 1 / 10] := by
      rw [pyNormalize]
      simp only [List.map_cons, List.map_nil]
      rw [hclip, hmin]
      norm_num [epsDen]
    rw [hval, npMax_pair, max_eq_right (by norm_num)]
    norm_num

/-! ### `_get_sample_dirname` (lines 714-717)

`str(int(sample_id / cls._SAMPLE_PER_DIR) * cls._SAMPLE_PER_DIR)` with
`_SAMPLE_PER_DIR = 1000`.  Python's `/` is exact here (modelled on `ℚ`) and
`int()` truncates toward zero. -/

def samplePerDir : ℕ := 1000

/-- Python `int()` on a rational: truncation toward zero. -/
def pyInt (q : ℚ) : ℤ := if q < 0 then ⌈q⌉ else ⌊q⌋

/-- `_get_sample_dirname` from the source (lines 714-717), as the numeric value
of the directory name. -/
def getSampleDirname (sample_id : ℕ) : ℤ :=
  pyInt ((sample_id : ℚ) / (samplePerDir : ℚ)) * (samplePerDir : ℤ)

lemma pyInt_nonneg (q : ℚ) (h : 0 ≤ q) : pyInt q = ⌊q⌋ := by
  rw [pyInt, if_neg (not_lt.mpr h)]

lemma floor_nat_div (a b : ℕ) (hb : 0 < b) :
    ⌊(a : ℚ) / (b : ℚ)⌋ = (a / b : ℕ) := by
  rw [Int.floor_eq_iff]
  constructor
  · rw [le_div_iff₀ (by exact_mod_cast hb)]
    push_cast
    exact_mod_cast Nat.cast_le.mpr (Nat.div_mul_le_self a b)
  · rw [div_lt_iff₀ (by exact_mod_cast hb)]
    have h : (a : ℚ) < (a / b : ℕ) * (b : ℚ) + (b : ℚ) := by
      exact_mod_cast Nat.lt_div_mul_add hb (a := a)
    push_cast
    rw [add_mul, one_mul]
    exact h

lemma getSampleDirname_eq (id : ℕ) :
    getSampleDirname id = ((id / 1000 * 1000 : ℕ) : ℤ) := by
  rw [getSampleDirname, pyInt_nonneg _ (by positivity), samplePerDir,
    floor_nat_div id 1000 (by norm_num)]
  push_cast
  ring

/-- C6: the shard directory for a sample id equals `floor(id/1000)*1000`; every
id lies in its shard's window `[shard, shard+1000)` (so a shard holds at most
1000 samples); and for ids `0..2999` (every such id is `id % 3000` for some
`id`) the shard is one of `0`, `1000`, `2000`. -/
theorem sample_dirname_shard (id : ℕ) :
    getSampleDirname id = ((id / 1000 * 1000 : ℕ) : ℤ) ∧
    getSampleDirname id ≤ (id : ℤ) ∧
    (id : ℤ) < getSampleDirname id + 1000 ∧
    (getSampleDirname (id % 3000) = 0 ∨ getSampleDirname (id % 3000) = 1000 ∨
      getSampleDirname (id % 3000) = 2000) := by
  refine ⟨getSampleDirname_eq id, ?_, ?_, ?_⟩
  · rw [getSampleDirname_eq id]
    exact_mod_cast Nat.div_mul_le_self id 1000
  · rw [getSampleDirname_eq id]
    have h : id < id / 1000 * 1000 + 1000 :=
      Nat.lt_div_mul_add (a := id) (by norm_num)
    exact_mod_cast h
  · rw [getSampleDirname_eq (id % 3000)]
    have h3 : id % 3000 < 3000 := Nat.mod_lt _ (by norm_num)
    have : id % 3000 / 1000 < 3 := Nat.div_lt_of_lt_mul h3
    interval_cases h : (id % 3000 / 1000) <;> simp [h]

/-! ### Union label sets in `_run_inference` (lines 243-296)

Per sample: `predicted_labels = [int(i) for i in (prob[idx] > threshold).nonzero()[0]]`
and `union_labs = list(set(gt_labels + predicted_labels))`.  Python's `set`
has unspecified order; only the underlying set of `union_labs` is observable,
so the duplicate removal is modelled by `List.dedup`. -/

/-- Indices whose predicted probability strictly exceeds the threshold
(line 270), in increasing index order as `nonzero()` returns them. -/
def predictedLabels (prob : List ℚ) (threshold : ℚ) : List ℕ :=
  (List.range prob.length).filter (fun i => threshold < prob.getD i 0)

/-- `list(set(gt_labels + predicted_labels))` (line 273). -/
def unionLabs (gt predicted : List ℕ) : List ℕ :=
  (gt ++ predicted).dedup

lemma mem_unionLabs (gt predicted : List ℕ) (l : ℕ) :
    l ∈ unionLabs gt predicted ↔ l ∈ gt ∨ l ∈ predicted := by
  simp [unionLabs]

lemma unionLabs_toFinset (gt predicted : List ℕ) :
    (unionLabs gt predicted).toFinset = gt.toFinset ∪ predicted.toFinset := by
  ext x
  simp [mem_unionLabs]

lemma mem_predictedLabels (prob : List ℚ) (threshold : ℚ) (i : ℕ) :
    i ∈ predictedLabels prob threshold ↔ i < prob.length ∧ threshold < prob.getD i 0 := by
  simp [predictedLabels, List.mem_filter, List.mem_range, and_comm]

/-- C5: the recorded union label set is the set-union of the ground-truth
labels and the labels predicted above the threshold; it does not depend on the
order of either input list, and duplicates are removed (the result is a
set-like list without repetition).  In particular for ground truth `{1, 3}`
and probabilities `[.1, .2, .3, .9, .4, .8]` at threshold `1/2` (predicted
`{3, 5}`) the union set is `{1, 3, 5}`. -/
theorem union_label_correct (gt predicted gt2 predicted2 : List ℕ)
    (hg : List.Perm gt gt2) (hp : List.Perm predicted predicted2) :
    (unionLabs gt predicted).toFinset = gt.toFinset ∪ predicted.toFinset ∧
    (unionLabs gt predicted).toFinset = (unionLabs gt2 predicted2).toFinset ∧
    (unionLabs gt predicted).Nodup ∧
    (unionLabs [1, 3]
        (predictedLabels [1/10, 2/10, 3/10, 9/10, 4/10, 8/10] (1/2))).toFinset =
      ({1, 3, 5} : Finset ℕ) := by
  refine ⟨unionLabs_toFinset gt predicted, ?_, List.nodup_dedup _, ?_⟩
  · rw [unionLabs_toFinset, unionLabs_toFinset,
      List.toFinset_eq_of_perm _ _ hg, List.toFinset_eq_of_perm _ _ hp]
  · have hpred : predictedLabels [1/10, 2/10, 3/10, 9/10, 4/10, 8/10] (1/2) = [3, 5] := by
      rw [predictedLabels]
      norm_num [List.filter, List.range, List.range.loop]
    rw [hpred, unionLabs_toFinset]
    decide

/-- C5 witness: the theorem applied to the concrete permuted inputs
`[1,3] ~ [3,1]` and `[3,5] ~ [5,3]`. -/
theorem union_label_correct_witness :
    (unionLabs [1, 3] [3, 5]).toFinset = [1, 3].toFinset ∪ [3, 5].toFinset ∧
    (unionLabs [1, 3] [3, 5]).toFinset = (unionLabs [3, 1] [5, 3]).toFinset ∧
    (unionLabs [1, 3] [3, 5]).Nodup ∧
    (unionLabs [1, 3]
        (predictedLabels [1/10, 2/10, 3/10, 9/10, 4/10, 8/10] (1/2))).toFinset =
      ({1, 3, 5} : Finset ℕ) :=
  union_label_correct [1, 3] [3, 5] [3, 1] [5, 3]
    (List.Perm.swap 3 1 []) (List.Perm.swap 5 3 [])

/-! ### Sample id assignment in `_run_inference` (lines 254-296)

`self._sample_index` is set to `0` (line 255), then for every batch yielded by
the dataset and every sample in the batch, the current index is recorded and
incremented (line 292).  The dataset iteration order is pinned by
`ds.config.set_seed(self._DATASET_SEED)` (line 256) with seed 58. -/

def datasetSeed : ℕ := 58

/-- The inner loop of `_run_inference`: assign consecutive ids to the samples
of one batch starting from the current sample index. -/
def inferBatch {α : Type} : List α → ℕ → List (ℕ × α)
  | [], _ => []
  | a :: rest, idx => (idx, a) :: inferBatch rest (idx + 1)

/-- The outer loop of `_run_inference`: process the batches in iteration
order, threading the running sample index. -/
def inferAll {α : Type} : List (List α) → ℕ → List (ℕ × α)
  | [], _ => []
  | b :: rest, idx => inferBatch b idx ++ inferAll rest (idx + b.length)

lemma inferBatch_map_fst {α : Type} (b : List α) (idx : ℕ) :
    (inferBatch b idx).map Prod.fst = List.range' idx b.length := by
  induction b generalizing idx with
  | nil => rfl
  | cons a rest ih => simp [inferBatch, List.range', ih]

lemma inferBatch_map_snd {α : Type} (b : List α) (idx : ℕ) :
    (inferBatch b idx).map Prod.snd = b := by
  induction b generalizing idx with
  | nil => rfl
  | cons a rest ih => simp [inferBatch, ih]

lemma inferAll_map_fst {α : Type} (bs : List (List α)) (idx : ℕ) :
    (inferAll bs idx).map Prod.fst = List.range' idx bs.flatten.length := by
  induction bs generalizing idx with
  | nil => rfl
  | cons b rest ih =>
      simp only [inferAll, List.map_append, inferBatch_map_fst, ih,
        List.flatten_cons, List.length_append]
      rw [List.range'_append_1]
      congr 1
      omega

lemma inferAll_map_snd {α : Type} (bs : List (List α)) (idx : ℕ) :
    (inferAll bs idx).map Prod.snd = bs.flatten := by
  induction bs generalizing idx with
  | nil => rfl
  | cons b rest ih => simp [inferAll, inferBatch_map_snd, ih]

/-- C9: for a dataset whose iteration order under the pinned seed 58 is
`shuffle 58 raw` (the shuffle itself lives in the dataset engine, outside this
file's sources, and is modelled as an arbitrary deterministic function of the
seed), the inference pass assigns ids `0 .. N-1` densely — the id list is
exactly `range N` — and in exactly iteration order — the payload list is
exactly the flattened iteration order; a second pass under the same pinned
seed yields the identical id assignment. -/
theorem inference_ids_dense {α : Type}
    (shuffle : ℕ → List (List α) → List (List α)) (raw : List (List α)) :
    ((inferAll (shuffle datasetSeed raw) 0).map Prod.fst =
      List.range (shuffle datasetSeed raw).flatten.length) ∧
    ((inferAll (shuffle datasetSeed raw) 0).map Prod.snd =
      (shuffle datasetSeed raw).flatten) ∧
    inferAll (shuffle datasetSeed raw) 0 = inferAll (shuffle datasetSeed raw) 0 := by
  refine ⟨?_, inferAll_map_snd _ _, rfl⟩
  rw [inferAll_map_fst, List.range_eq_range']

/-! ### Summary log step numbers (`summary.record`, lines 239, 290, 356, 410)

The runner writes metadata, per-sample `sample`/`inference` records,
per-sample `explanation` records and per-explainer `benchmark` records through
the summary writer. -/

inductive EntryKind where
  | metadata : EntryKind
  | sample : EntryKind
  | inference : EntryKind
  | explanation : EntryKind
  | benchmark : EntryKind
deriving DecidableEq, Repr

structure SummaryWriter where
  counter : ℕ
  log : List (ℕ × EntryKind)
deriving DecidableEq, Repr

/-- Modelled from the spec: the summary writer (`SummaryRecord` of
`mindspore.train.summary`, whose implementation is not under `src/`) keeps "a
sequential append-only log of typed records ... keyed by an auto-incrementing
step counter"; appending an entry stamps it with the current counter value and
increments the counter. -/
def recordEntry (w : SummaryWriter) (e : EntryKind) : SummaryWriter :=
  { counter := w.counter + 1, log := w.log ++ [(w.counter, e)] }

/-- Append a whole sequence of entries in order. -/
def recordAll (w : SummaryWriter) (es : List EntryKind) : SummaryWriter :=
  es.foldl recordEntry w

/-- The sequence of typed entries one run writes (lines 211-217): the metadata
entry, then per sample a `sample` and an `inference` entry (lines 279-290),
then per explainer one `explanation` entry per sample (line 409-410) and, when
benchmarkers are registered, one `benchmark` entry (lines 355-356). -/
def runEntries (nSamples nExplainers : ℕ) (withBench : Bool) : List EntryKind :=
  EntryKind.metadata ::
    ((List.range nSamples).flatMap fun _ => [EntryKind.sample, EntryKind.inference]) ++
    ((List.range nExplainers).flatMap fun _ =>
      ((List.range nSamples).map fun _ => EntryKind.explanation) ++
        (if withBench then [EntryKind.benchmark] else []))

lemma recordAll_eq (es : List EntryKind) :
    ∀ (c : ℕ) (L : List (ℕ × EntryKind)),
      recordAll ⟨c, L⟩ es = ⟨c + es.length, L ++ es.enumFrom c⟩ := by
  induction es with
  | nil => intro c L; simp [recordAll]
  | cons e t ih =>
      intro c L
      simp only [recordAll, List.foldl_cons] at *
      rw [recordEntry, ih]
      simp [List.enumFrom]
      omega

lemma map_fst_enumFrom {α : Type} (es : List α) :
    ∀ c : ℕ, (es.enumFrom c).map Prod.fst = List.range' c es.length := by
  induction es with
  | nil => intro c; rfl
  | cons e t ih => intro c; simp [List.enumFrom, List.range', ih]

lemma map_snd_enumFrom {α : Type} (es : List α) :
    ∀ c : ℕ, (es.enumFrom c).map Prod.snd = es := by
  induction es with
  | nil => intro c; rfl
  | cons e t ih => intro c; simp [List.enumFrom, ih]

lemma pairwise_lt_range' (n : ℕ) :
    ∀ s : ℕ, (List.range' s n).Pairwise (· < ·) := by
  induction n with
  | zero => intro s; simp
  | succ m ih =>
      intro s
      rw [List.range'_succ]
      refine List.Pairwise.cons ?_ (ih (s + 1))
      intro b hb
      have := (List.mem_range'_1).mp hb
      omega

/-- C2: every entry the run appends to the summary log is stamped with a
strictly increasing step number — for any two entries written in sequence the
later step is strictly greater (pairwise increasing along the log). -/
theorem summary_steps_strict_mono (nSamples nExplainers : ℕ) (withBench : Bool) :
    ((recordAll ⟨0, []⟩ (runEntries nSamples nExplainers withBench)).log.map
      Prod.fst).Pairwise (· < ·) := by
  rw [recordAll_eq, List.nil_append, map_fst_enumFrom]
  exact pairwise_lt_range' _ 0

/-! ### Runner state, registration and verification (lines 111-217, 445-560)

Python dynamic checks that are static in the typed embedding
(`check_value_type`, `isinstance` list-element checks) are omitted; the
remaining value checks are translated one by one.  Explainers are identified
by their class tag and by the identity of the network instance they wrap;
benchmarkers by class tag, capability kind and expected label count. -/

inductive PyError where
  | valueError : PyError
  | typeError : PyError
  | runtimeError : PyError
  | keyError : PyError
deriving DecidableEq, Repr

structure Explainer where
  cls : ℕ
  network : ℕ
deriving DecidableEq, Repr

inductive BenchKind where
  | localization : BenchKind
  | labelSensitive : BenchKind
  | labelAgnostic : BenchKind
deriving DecidableEq, Repr

structure Benchmarker where
  cls : ℕ
  kind : BenchKind
  numLabels : ℕ
deriving DecidableEq, Repr

/-- Shape information of the first dataset row, as probed by
`next(self._dataset.create_tuple_iterator())` in `_verify_data`. -/
structure DatasetInfo where
  ncols : ℕ
  bboxShape : List ℕ
  inputsShape : List ℕ
  labelsShape : List ℕ
deriving DecidableEq, Repr

structure RunnerState where
  labels : List String
  networkId : ℕ
  outWidth : ℕ
  ds : DatasetInfo
  explainers : Option (List Explainer)
  benchmarkers : Option (List Benchmarker)
deriving DecidableEq, Repr

/-- `bool(self._explainers)` (line 222): `None` and the empty list are falsy. -/
def isSaliencyRegistered (st : RunnerState) : Bool :=
  match st.explainers with
  | some es => !es.isEmpty
  | none => false

/-- Whether any registered benchmarker is a `Localization` instance
(line 460). -/
def hasLocalization : Option (List Benchmarker) → Bool
  | some bs => bs.any fun b => b.kind == BenchKind.localization
  | none => false

/-- `shape[-3]` of the image tensor. -/
def shapeThirdLast (shape : List ℕ) : ℕ := shape.reverse.getD 2 0

/-- `shape[-1]` of the bbox tensor. -/
def shapeLast (shape : List ℕ) : ℕ := shape.getLastD 0

/-- `_verify_data` (lines 445-480), returning the first error raised. -/
def verifyData (st : RunnerState) : Option PyError :=
  if ¬(st.ds.ncols = 1 ∨ st.ds.ncols = 2 ∨ st.ds.ncols = 3) then
    some PyError.valueError
  else if st.ds.ncols = 3 ∧ shapeLast st.ds.bboxShape ≠ 4 then
    some PyError.valueError
  else if st.ds.ncols ≠ 3 ∧ hasLocalization st.benchmarkers then
    some PyError.valueError
  else if 4 < st.ds.inputsShape.length ∨ st.ds.inputsShape.length < 3 ∨
      ¬(shapeThirdLast st.ds.inputsShape = 1 ∨ shapeThirdLast st.ds.inputsShape = 3 ∨
        shapeThirdLast st.ds.inputsShape = 4) then
    some PyError.valueError
  else if 1 < st.ds.ncols ∧ 2 < st.ds.labelsShape.length ∧
      1 < ((st.ds.labelsShape.drop 1).filter fun d => 1 < d).length then
    some PyError.valueError
  else
    none

/-- The label scan of `_verify_network` (lines 484-491): an empty/whitespace
label or a duplicated label raises `ValueError`. -/
def labelsScan : List String → List String → Option PyError
  | [], _ => none
  | l :: rest, seen =>
    if l.trim = "" then some PyError.valueError
    else if l ∈ seen then some PyError.valueError
    else labelsScan rest (l :: seen)

/-- `_verify_network` (lines 482-499). -/
def verifyNetwork (st : RunnerState) : Option PyError :=
  match labelsScan st.labels [] with
  | some e => some e
  | none =>
    if st.outWidth ≠ st.labels.length then some PyError.valueError else none

/-- The explainer scan of `_verify_saliency` (lines 503-513): duplicate
explainer classes and foreign network instances raise `ValueError`. -/
def explainersScan (net : ℕ) : List Explainer → List ℕ → Option PyError
  | [], _ => none
  | e :: rest, seen =>
    if e.cls ∈ seen then some PyError.valueError
    else if e.network ≠ net then some PyError.valueError
    else explainersScan net rest (e.cls :: seen)

/-- The benchmarker scan of `_verify_saliency` (lines 514-523): duplicate
benchmarker classes and label-count mismatches of label-sensitive metrics
raise `ValueError`. -/
def benchmarkersScan (numLabels : ℕ) : List Benchmarker → List ℕ → Option PyError
  | [], _ => none
  | b :: rest, seen =>
    if b.cls ∈ seen then some PyError.valueError
    else if b.kind = BenchKind.labelSensitive ∧ b.numLabels ≠ numLabels then
      some PyError.valueError
    else benchmarkersScan numLabels rest (b.cls :: seen)

/-- `_verify_saliency` (lines 501-523). -/
def verifySaliency (st : RunnerState) : Option PyError :=
  match (match st.explainers with
         | some es => if es.isEmpty then none else explainersScan st.networkId es []
         | none => none) with
  | some e => some e
  | none =>
    match st.benchmarkers with
    | some bs => if bs.isEmpty then none else benchmarkersScan st.labels.length bs []
    | none => none

/-- Sequence two fallible checks, keeping the first error. -/
def firstErr (a b : Option PyError) : Option PyError :=
  match a with
  | some e => some e
  | none => b

/-- `_verify_data_n_settings` (lines 525-560) with the three derived flags
(`check_all=True` sets all of them). -/
def verifyDataNSettings (st : RunnerState)
    (check_registration check_data_n_network check_saliency : Bool) :
    Option PyError :=
  firstErr
    (if check_registration && !isSaliencyRegistered st then some PyError.valueError
     else none)
    (firstErr
      (if check_data_n_network || check_saliency then verifyData st else none)
      (firstErr
        (if check_data_n_network then verifyNetwork st else none)
        (if check_saliency then verifySaliency st else none)))

/-- `register_saliency` (lines 142-186): returns the raised error (if any)
together with the runner state after the call.  The argument type checks of
lines 163-173 are static here; the remaining value check is the emptiness
check of line 167-168. -/
def registerSaliency (st : RunnerState) (explainers : List Explainer)
    (benchmarkers : Option (List Benchmarker)) : Option PyError × RunnerState :=
  if explainers.isEmpty then (some PyError.valueError, st)
  else if st.explainers ≠ none then (some PyError.runtimeError, st)
  else
    let st1 := { st with explainers := some explainers, benchmarkers := benchmarkers }
    match verifyDataNSettings st1 false false true with
    | some e => (some e, { st1 with explainers := none, benchmarkers := none })
    | none => (none, st1)

/-- C3: a failing `register_saliency` call never leaves a partial
registration: when a prior call succeeded (`explainers` is already set), the
call fails with `RuntimeError` and returns the state completely unchanged;
when no prior registration exists and the call still fails (verification
error), both `explainers` and `benchmarkers` are rolled back to `None`. -/
theorem register_saliency_rollback (st : RunnerState) (es : List Explainer)
    (bm : Option (List Benchmarker)) (hne : es ≠ [])
    (hfail : (registerSaliency st es bm).1 ≠ none) :
    (st.explainers ≠ none →
      registerSaliency st es bm = (some PyError.runtimeError, st)) ∧
    (st.explainers = none →
      (registerSaliency st es bm).2.explainers = none ∧
      (registerSaliency st es bm).2.benchmarkers = none) := by
  have hempty : es.isEmpty = false := by
    cases es with
    | nil => exact absurd rfl hne
    | cons a t => rfl
  constructor
  · intro hprev
    rw [registerSaliency, hempty]
    simp [hprev]
  · intro hnone
    rw [registerSaliency, hempty] at hfail ⊢
    simp only [hnone, Bool.false_eq_true, if_false, ne_eq, reduceCtorEq,
      not_false_eq_true, if_neg, ite_not] at hfail ⊢
    cases hverify : verifyDataNSettings
        { st with explainers := some es, benchmarkers := bm } false false true with
    | none => rw [hverify] at hfail; simp at hfail
    | some e => simp

/-- A concrete runner state on which `register_saliency` already succeeded
once. -/
def c3State : RunnerState :=
  { labels := ["a"], networkId := 0, outWidth := 1,
    ds := { ncols := 2, bboxShape := [], inputsShape := [1, 3, 32, 32],
            labelsShape := [1] },
    explainers := some [{ cls := 0, network := 0 }], benchmarkers := none }

/-- C3 witness: a second `register_saliency` call on `c3State` fails with
`RuntimeError` and leaves the state unchanged. -/
theorem register_saliency_rollback_witness :
    (c3State.explainers ≠ none →
      registerSaliency c3State [{ cls := 1, network := 0 }] none =
        (some PyError.runtimeError, c3State)) ∧
    (c3State.explainers = none →
      (registerSaliency c3State [{ cls := 1, network := 0 }] none).2.explainers = none ∧
      (registerSaliency c3State [{ cls := 1, network := 0 }] none).2.benchmarkers = none) :=
  register_saliency_rollback c3State [{ cls := 1, network := 0 }] none
    (by decide) (by decide)

/-! ### `run` (lines 188-217): verification before any write

`run()` calls `self._verify_data_n_settings(check_all=True)` (line 200)
before the summary record is opened and before any file is written; only
afterwards does it write metadata, per-sample records and (when registered)
saliency data. -/

structure Bbox where
  x : ℤ
  y : ℤ
  w : ℤ
  h : ℤ
deriving DecidableEq, Repr

inductive WriteOp where
  | summaryEntry : EntryKind → WriteOp
  | originalImage : ℕ → WriteOp
  | heatmapImage : ℕ → ℕ → WriteOp
deriving DecidableEq, Repr

/-- `_verify_data_n_settings(check_all=True)` as invoked by `run` (line 200). -/
def verifyAll (st : RunnerState) : Option PyError :=
  verifyDataNSettings st true true true

/-- The writes a successful run performs, in order (lines 202-217, 224-241,
254-296, 298-356, 358-414): metadata, then per sample the original image and
the `sample`/`inference` entries, then per explainer the per-sample heatmaps
(one per union label) and `explanation` entries with one `benchmark` entry
when benchmarkers are registered. -/
def runWrites (st : RunnerState) (sampleUnions : List (List ℕ)) : List WriteOp :=
  WriteOp.summaryEntry EntryKind.metadata ::
    (sampleUnions.enum.flatMap fun p =>
      [WriteOp.originalImage p.1, WriteOp.summaryEntry EntryKind.sample,
        WriteOp.summaryEntry EntryKind.inference]) ++
    (match st.explainers with
     | some es =>
       es.flatMap fun _ =>
         (sampleUnions.enum.flatMap fun p =>
           (p.2.map fun lab => WriteOp.heatmapImage p.1 lab) ++
             [WriteOp.summaryEntry EntryKind.explanation]) ++
           (match st.benchmarkers with
            | some bs =>
              if bs.isEmpty then [] else [WriteOp.summaryEntry EntryKind.benchmark]
            | none => [])
     | none => [])

/-- `run` (lines 188-217): verify everything first; on any verification error
propagate it with no write performed, otherwise perform the writes. -/
def run (st : RunnerState) (sampleUnions : List (List ℕ)) :
    Option PyError × List WriteOp :=
  match verifyAll st with
  | some e => (some e, [])
  | none => (none, runWrites st sampleUnions)

lemma firstErr_eq_none (a b : Option PyError) :
    firstErr a b = none ↔ a = none ∧ b = none := by
  cases a <;> simp [firstErr]

/-- C7: when the pre-run verification fails, `run` raises that error and
writes nothing — no summary entry and no image file; and the pre-run
verification passes exactly when every individual check passes: saliency
registration, dataset/shape checks, network/label checks and saliency
settings checks. -/
theorem run_fail_fast (st st2 : RunnerState) (sampleUnions : List (List ℕ))
    (e : PyError) (h : verifyAll st = some e) :
    run st sampleUnions = (some e, []) ∧
    (verifyAll st2 = none ↔
      (isSaliencyRegistered st2 = true ∧ verifyData st2 = none ∧
        verifyNetwork st2 = none ∧ verifySaliency st2 = none)) := by
  constructor
  · rw [run, h]
  · rw [verifyAll, verifyDataNSettings]
    simp only [Bool.true_and, Bool.true_or, Bool.or_true, if_true]
    rw [firstErr_eq_none, firstErr_eq_none, firstErr_eq_none]
    cases hreg : isSaliencyRegistered st2 <;> simp [hreg, and_assoc]

/-- A runner state that fails verification: nothing was registered. -/
def c7BadState : RunnerState :=
  { labels := [], networkId := 0, outWidth := 0,
    ds := { ncols := 2, bboxShape := [], inputsShape := [1, 3, 32, 32],
            labelsShape := [1] },
    explainers := none, benchmarkers := none }

/-- A runner state that passes all verification checks. -/
def c7GoodState : RunnerState :=
  { labels := [], networkId := 0, outWidth := 0,
    ds := { ncols := 2, bboxShape := [], inputsShape := [1, 3, 32, 32],
            labelsShape := [1] },
    explainers := some [{ cls := 0, network := 0 }], benchmarkers := none }

/-- C7 witness: on `c7BadState` (saliency never registered) `run` fails with
`ValueError` and performs zero writes. -/
theorem run_fail_fast_witness :
    run c7BadState [[0]] = (some PyError.valueError, []) ∧
    (verifyAll c7GoodState = none ↔
      (isSaliencyRegistered c7GoodState = true ∧ verifyData c7GoodState = none ∧
        verifyNetwork c7GoodState = none ∧ verifySaliency c7GoodState = none)) :=
  run_fail_fast c7BadState c7GoodState [[0]] PyError.valueError (by decide)

/-! ### Localization gating in `_run_exp_benchmark_step` (lines 422-430)

For a `Localization` benchmarker the code iterates the per-sample saliency
dictionary and, only when `label in labels[idx]` (the label is a true
positive), evaluates with `mask=bboxes[idx][label]` — a dict lookup into the
per-sample mask dictionary built by `_transform_data` (lines 589-609), which
raises `KeyError` when the label has no mask — and then aggregates. -/

/-- `-1 < target < len(self._labels)` (lines 599, 618). -/
def inRangeLabel (numLabels : ℕ) (t : ℤ) : Bool :=
  decide (-1 < t ∧ t < (numLabels : ℤ))

/-- Ground-truth labels of one sample on the multi-dimensional label path
(line 618): `list(set(int(i) for i in item if -1 < int(i) < len(labels)))`. -/
def gtLabelsMulti (numLabels : ℕ) (row : List ℤ) : List ℤ :=
  (row.filter (inRangeLabel numLabels)).dedup

/-- Updating the mask dictionary with one `(target, bbox)` pair (lines
600-606): extend the existing mask for the target or start a new one. -/
def upsertMask (masks : List (ℤ × List Bbox)) (t : ℤ) (bb : Bbox) :
    List (ℤ × List Bbox) :=
  if masks.any fun p => p.1 == t then
    masks.map fun p => if p.1 == t then (p.1, p.2 ++ [bb]) else p
  else masks ++ [(t, [bb])]

/-- The per-sample mask dictionary of `_transform_data` (lines 594-608): fold
over the `(label_item, bbox)` pairs of the row, painting only targets in the
valid label range. -/
def maskDict (numLabels : ℕ) (pairs : List (ℤ × Bbox)) : List (ℤ × List Bbox) :=
  pairs.foldl
    (fun masks p => if inRangeLabel numLabels p.1 then upsertMask masks p.1 p.2 else masks)
    []

/-- The localization branch of `_run_exp_benchmark_step` (lines 423-430) over
one sample: walk the saliency-dictionary keys; skip non-true-positive labels;
for a true positive, look the mask up (a missing key raises `KeyError`),
evaluate and aggregate.  Returns the labels evaluated-and-aggregated, in
order. -/
def locBenchSample (gt : List ℤ) (masks : List (ℤ × List Bbox)) :
    List ℤ → Except PyError (List ℤ)
  | [] => Except.ok []
  | l :: rest =>
    if l ∈ gt then
      match masks.lookup l with
      | some _ =>
        match locBenchSample gt masks rest with
        | Except.ok out => Except.ok (l :: out)
        | Except.error e => Except.error e
      | none => Except.error PyError.keyError
    else locBenchSample gt masks rest

lemma locBenchSample_ok_mem (gt : List ℤ) (masks : List (ℤ × List Bbox)) :
    ∀ (salKeys out : List ℤ) (l : ℤ),
      locBenchSample gt masks salKeys = Except.ok out →
      (l ∈ out ↔ l ∈ salKeys ∧ l ∈ gt ∧ (masks.lookup l).isSome) := by
  intro salKeys
  induction salKeys with
  | nil =>
      intro out l h
      rw [locBenchSample] at h
      cases h
      simp
  | cons k rest ih =>
      intro out l h
      rw [locBenchSample] at h
      by_cases hk : k ∈ gt
      · rw [if_pos hk] at h
        cases hlk : masks.lookup k with
        | none => rw [hlk] at h; cases h
        | some m =>
            rw [hlk] at h
            cases hrec : locBenchSample gt masks rest with
            | error e => rw [hrec] at h; cases h
            | ok out2 =>
                rw [hrec] at h
                cases h
                by_cases hlkq : l = k
                · subst hlkq
                  simp [hk, hlk]
                · have := ih out2 l hrec
                  simp only [List.mem_cons, hlkq, false_or, this]
      · rw [if_neg hk] at h
        have := ih out l h
        rw [this]
        constructor
        · rintro ⟨h1, h2, h3⟩
          exact ⟨List.mem_cons_of_mem k h1, h2, h3⟩
        · rintro ⟨h1, h2, h3⟩
          rcases List.mem_cons.mp h1 with h1 | h1
          · subst h1; exact absurd h2 hk
          · exact ⟨h1, h2, h3⟩

/-- C8: in a completed localization benchmark step over one sample, a label is
evaluated (and aggregated) if and only if it is one of the sample's saliency
keys, is a true positive (in the sample's ground-truth label list) and has a
bounding-box mask in the sample's mask dictionary; saliency keys failing this
condition are neither evaluated nor aggregated. -/
theorem localization_tp_gate (numLabels : ℕ) (row : List ℤ)
    (pairs : List (ℤ × Bbox)) (salKeys out : List ℤ) (l : ℤ)
    (h : locBenchSample (gtLabelsMulti numLabels row) (maskDict numLabels pairs)
        salKeys = Except.ok out) :
    l ∈ out ↔
      l ∈ salKeys ∧ l ∈ gtLabelsMulti numLabels row ∧
        ((maskDict numLabels pairs).lookup l).isSome :=
  locBenchSample_ok_mem _ _ salKeys out l h

/-- C8 witness: sample with ground-truth row `[1]`, one bbox for label `1`,
saliency keys `{1, 2}`; only label `1` is evaluated and aggregated. -/
theorem localization_tp_gate_witness :
    (1 : ℤ) ∈ [(1 : ℤ)] ↔
      (1 : ℤ) ∈ [(1 : ℤ), 2] ∧ (1 : ℤ) ∈ gtLabelsMulti 3 [1] ∧
        ((maskDict 3 [((1 : ℤ), { x := 0, y := 0, w := 2, h := 2 })]).lookup 1).isSome :=
  localization_tp_gate 3 [1] [((1 : ℤ), { x := 0, y := 0, w := 2, h := 2 })]
    [1, 2] [1] 1 rfl

/-! ### `_run_exp_step` and `_make_label_batch` (lines 358-414, 645-664)

`_make_label_batch` zero-pads the per-sample union-label lists to a
rectangular batch; `_run_exp_step` then builds the per-sample saliency
dictionary by enumerating the *unpadded* union list: `for k, lab in
enumerate(union): saliency_dict[lab] = batch_saliency_full[idx, k]`. -/

/-- Python `max(list)` on naturals (line 657); the source errors on an empty
argument, which cannot occur as every batch is nonempty. -/
def pyMaxNat : List ℕ → ℕ
  | [] => 0
  | x :: xs => xs.foldl max x

/-- `_make_label_batch` (lines 645-664): zero-pad every row to the maximal
row length. -/
def makeLabelBatch (labels : List (List ℕ)) : List (List ℕ) :=
  let max_len := pyMaxNat (labels.map List.length)
  labels.map fun row => row ++ List.replicate (max_len - row.length) 0

/-- The per-sample saliency dictionary of `_run_exp_step` (lines 392-398):
each union label is mapped to its own column `k` of the saliency batch. -/
def saliencyDictSample (union : List ℕ) : List (ℕ × ℕ) :=
  union.enum.map fun p => (p.2, p.1)

/-- C10: the key list of the per-sample saliency dictionary is exactly the
sample's union label list (so its key set is the union label set, and one
explanation record / heatmap is produced per union label and none for any
other label); the columns read are exactly `0 .. len(union)-1`, while the
zero-padding added by `_make_label_batch` occupies only the columns from
`len(union)` on — it never contributes a dictionary entry. -/
theorem saliency_dict_keys (unions : List (List ℕ)) (i : ℕ)
    (hi : i < unions.length) :
    (saliencyDictSample (unions.getD i [])).map Prod.fst = unions.getD i [] ∧
    (saliencyDictSample (unions.getD i [])).map Prod.snd =
      List.range (unions.getD i []).length ∧
    (makeLabelBatch unions).getD i [] =
      unions.getD i [] ++
        List.replicate
          (pyMaxNat (unions.map List.length) - (unions.getD i []).length) 0 := by
  refine ⟨?_, ?_, ?_⟩
  · rw [saliencyDictSample, List.map_map]
    have : (Prod.fst ∘ fun p : ℕ × ℕ => (p.2, p.1)) = Prod.snd := rfl
    rw [this]
    exact map_snd_enumFrom _ 0
  · rw [saliencyDictSample, List.map_map]
    have : (Prod.snd ∘ fun p : ℕ × ℕ => (p.2, p.1)) = Prod.fst := rfl
    rw [this, List.range_eq_range']
    have h := map_fst_enumFrom (unions.getD i []) 0
    exact h
  · simp only [makeLabelBatch]
    rw [List.getD_eq_getElem?_getD, List.getD_eq_getElem?_getD, List.getElem?_map,
      List.getElem?_eq_getElem hi]
    rfl

/-- C10 witness: the batch `[[1, 3, 5], [2]]` at sample `0`: keys `[1, 3, 5]`,
columns `[0, 1, 2]`, padded row unchanged (it is the longest row). -/
theorem saliency_dict_keys_witness :
    (saliencyDictSample ([[1, 3, 5], [2]].getD 0 [])).map Prod.fst =
      [[1, 3, 5], [2]].getD 0 [] ∧
    (saliencyDictSample ([[1, 3, 5], [2]].getD 0 [])).map Prod.snd =
      List.range ([[1, 3, 5], [2]].getD 0 []).length ∧
    (makeLabelBatch [[1, 3, 5], [2]]).getD 0 [] =
      [[1, 3, 5], [2]].getD 0 [] ++
        List.replicate
          (pyMaxNat ([[1, 3, 5], [2]].map List.length) -
            ([[1, 3, 5], [2]].getD 0 []).length) 0 :=
  saliency_dict_keys [[1, 3, 5], [2]] 0 (by decide)
